import Mathlib

/-
Verification development for the `bioinfo_scripts` repository
(src/fasta_rename.py, src/gxf_rename.py, src/gff3_rename.py).

Modelling conventions:
- A data file (FASTA, GFF3/GTF) is a `List String` of raw lines exactly as
  Python text-mode iteration yields them: each line keeps its trailing
  newline, except possibly the last line of the file.
- A mapping-table file is a `List String` of logical lines with the line
  terminator already removed, matching what Python's csv.reader (which
  consumes line endings itself) presents row by row.  csv quoting is not
  modelled; inputs are assumed free of the double-quote character, on which
  csv.reader with delimiter tab degenerates to a plain tab split, with the
  one special case that a fully blank line yields the empty row.
- Python string operations are re-implemented structurally over `String.data`
  so that every definition reduces inside the kernel.
-/

/-- Whitespace test matching Python's `str.strip` default set. -/
def isWS (c : Char) : Bool :=
  c = ' ' || c = '\t' || c = '\n' || c = '\r' || c = '\x0b' || c = '\x0c'

/-- Model of Python `s.strip()`: remove leading and trailing whitespace. -/
def pyStrip (s : String) : String :=
  String.mk (((s.data.dropWhile isWS).reverse.dropWhile isWS).reverse)

/-- Model of Python `s.startswith(p)`. -/
def pyStartsWith (s p : String) : Bool :=
  p.data.isPrefixOf s.data

/-- Model of Python `s[1:]`: drop the first character. -/
def strDrop1 (s : String) : String :=
  String.mk (s.data.drop 1)

/-- All suffixes of a character list, longest first. -/
def tailsList : List Char → List (List Char)
  | [] => [[]]
  | c :: rest => (c :: rest) :: tailsList rest

/-- Model of Python `needle in hay` on strings: substring containment. -/
def strContains (hay needle : String) : Bool :=
  (tailsList hay.data).any (fun t => needle.data.isPrefixOf t)

/-- Split a character list on tab characters; always returns at least one field. -/
def splitTabs : List Char → List (List Char)
  | [] => [[]]
  | c :: rest =>
    let r := splitTabs rest
    if c = '\t' then [] :: r
    else
      match r with
      | [] => [[c]]
      | f :: fs => (c :: f) :: fs

/-- Model of Python `s.split("\t")`. -/
def pySplitTab (s : String) : List String :=
  (splitTabs s.data).map String.mk

/-- Model of Python `"\t".join(fields)`. -/
def joinTabs : List String → String
  | [] => ""
  | [f] => f
  | f :: g :: fs => f ++ "\t" ++ joinTabs (g :: fs)

/-- Row produced by csv.reader (delimiter tab) for one logical line: a blank
line yields the empty row, any other line is tab-split. -/
def csvRow (l : String) : List String :=
  if l = "" then [] else pySplitTab l

/-- Python dict assignment `d[k] = v` on an association list with unique keys:
an existing key keeps its position and takes the new value, a new key is
appended at the end. -/
def dictInsert (d : List (String × String)) (k v : String) : List (String × String) :=
  match d with
  | [] => [(k, v)]
  | p :: rest => if p.1 = k then (k, v) :: rest else p :: dictInsert rest k v

/-- Python dict lookup `d[k]` / `k in d` on the association list. -/
def dictLookup (d : List (String × String)) (k : String) : Option String :=
  match d with
  | [] => none
  | p :: rest => if p.1 = k then some p.2 else dictLookup rest k

/-- Models `load_table` of src/fasta_rename.py and src/gxf_rename.py (and
src/gff3_rename.py, identical): rows are inserted into a dict keyed by the
first field, `table[row[0]] = row[1]`.  Only invoked after `validate_table`
has accepted the file, so every row has exactly two fields; `getD` supplies
a harmless default off that path. -/
def load_table (lines : List String) : List (String × String) :=
  lines.foldl (fun d l => dictInsert d ((csvRow l).getD 0 "") ((csvRow l).getD 1 "")) []

/-- Models `validate_table` (identical in all three scripts): every csv row
must have exactly two fields. -/
def validate_table (lines : List String) : Bool :=
  lines.all (fun l => decide ((csvRow l).length = 2))

/-- Models `validate_fasta` of src/fasta_rename.py: accept iff some line
starts with the header marker. -/
def validate_fasta (lines : List String) : Bool :=
  lines.any (fun l => pyStartsWith l ">")

/-- Models `validate_gxf` of src/gxf_rename.py: accept iff some non-comment
line has at least 8 tab-delimited fields after stripping. -/
def validate_gxf (lines : List String) : Bool :=
  lines.any (fun l => !(pyStartsWith l "#") && decide (8 ≤ (pySplitTab (pyStrip l)).length))

/-- Models `validate_gff3` of src/gff3_rename.py: accept iff every
non-comment line has exactly 9 tab-delimited fields after stripping. -/
def validate_gff3 (lines : List String) : Bool :=
  lines.all (fun l => pyStartsWith l "#" || decide ((pySplitTab (pyStrip l)).length = 9))

/-- Models the replacement-candidate computation shared by
src/fasta_rename.py line 79 and src/gxf_rename.py line 85:
`[new_id for old_id, new_id in mapping_table.items() if old_id in id_]`. -/
def resolveReplacements (table : List (String × String)) (rawId : String) : List String :=
  (table.filter (fun e => strContains rawId e.1)).map (fun e => e.2)

/-- The resolution outcome classification of spec section 4.4. -/
inductive ResolutionOutcome where
  | NoMatch : ResolutionOutcome
  | UniqueMatch : String → ResolutionOutcome
  | AmbiguousMatch : List String → ResolutionOutcome
deriving DecidableEq, Repr

/-- Classification of the code's replacement list by its length, following
the branch order of the source (`len > 1`, `len == 1`, else). -/
def resolve (table : List (String × String)) (rawId : String) : ResolutionOutcome :=
  let reps := resolveReplacements table rawId
  if 1 < reps.length then .AmbiguousMatch reps
  else if reps.length = 1 then .UniqueMatch (reps.headD "")
  else .NoMatch

/-- State threaded through the FASTA rewrite loop: lines written so far, the
`multiple_matches` accumulator, and the identifiers warned about. -/
structure FastaState where
  output : List String
  ambiguous : List (String × List String)
  warnings : List String
deriving DecidableEq, Repr

/-- Python `defaultdict(list)` update `d[k].extend(v)`: extend the existing
entry in place, or append a fresh one. -/
def ambigAdd (d : List (String × List String)) (k : String) (v : List String) :
    List (String × List String) :=
  match d with
  | [] => [(k, v)]
  | p :: rest => if p.1 = k then (p.1, p.2 ++ v) :: rest else p :: ambigAdd rest k v

/-- Models one iteration of the rewrite loop of src/fasta_rename.py
lines 76-93: headers are resolved by substring containment and rewritten on
a unique match; everything else is passed through. -/
def fastaStep (table : List (String × String)) (s : FastaState) (line : String) : FastaState :=
  if pyStartsWith line ">" then
    let id_ := pyStrip (strDrop1 line)
    let reps := resolveReplacements table id_
    if 1 < reps.length then
      { s with output := s.output ++ [line], ambiguous := ambigAdd s.ambiguous id_ reps }
    else if reps.length = 1 then
      { s with output := s.output ++ [">" ++ reps.headD "" ++ "\n"] }
    else
      { s with output := s.output ++ [line], warnings := s.warnings ++ [id_] }
  else
    { s with output := s.output ++ [line] }

/-- Models the full streaming pass of src/fasta_rename.py `main`. -/
def fasta_rename (table : List (String × String)) (lines : List String) : FastaState :=
  List.foldl (fastaStep table) ⟨[], [], []⟩ lines

/-- Final run status of spec section 4.5. -/
inductive RunStatus where
  | Success : RunStatus
  | Failure : RunStatus
deriving DecidableEq, Repr

/-- Models the end-of-stream check `if multiple_matches: ... exit(1)` of
src/fasta_rename.py lines 96-100 and src/gxf_rename.py lines 101-105. -/
def runStatus (ambiguous : List (String × List String)) : RunStatus :=
  if ambiguous = [] then .Success else .Failure

/-- State threaded through the GXF attribute-mode rewrite loop; `skipped`
records the stripped text of malformed lines warned about. -/
structure GxfState where
  output : List String
  ambiguous : List (String × List String)
  warnings : List String
  skipped : List String
deriving DecidableEq, Repr

/-- Models one iteration of the rewrite loop of src/gxf_rename.py
lines 74-98.  The access `columns[8]` is fallible: when the list has no
index 8 the loop raises IndexError, modelled as `Except.error ()`. -/
def gxfStep (table : List (String × String)) (s : GxfState) (line : String) :
    Except Unit GxfState :=
  if pyStartsWith line "#" then
    .ok { s with output := s.output ++ [line] }
  else
    let columns := pySplitTab (pyStrip line)
    if columns.length < 8 then
      .ok { s with skipped := s.skipped ++ [pyStrip line] }
    else
      match columns.get? 8 with
      | none => .error ()
      | some id_ =>
        let reps := resolveReplacements table id_
        if 1 < reps.length then
          .ok { s with output := s.output ++ [line], ambiguous := ambigAdd s.ambiguous id_ reps }
        else if reps.length = 1 then
          .ok { s with output := s.output ++ [joinTabs (columns.set 8 (reps.headD "")) ++ "\n"] }
        else
          .ok { s with output := s.output ++ [line], warnings := s.warnings ++ [id_] }

/-- Runs the GXF attribute-mode loop over the remaining lines, stopping only
when a line raises IndexError. -/
def gxfRun (table : List (String × String)) (s : GxfState) :
    List String → Except Unit GxfState
  | [] => .ok s
  | line :: rest =>
    match gxfStep table s line with
    | .error e => .error e
    | .ok s2 => gxfRun table s2 rest

/-- Models the full streaming pass of src/gxf_rename.py `main`. -/
def gxf_rename (table : List (String × String)) (lines : List String) :
    Except Unit GxfState :=
  gxfRun table ⟨[], [], [], []⟩ lines

/-- Models one iteration of the rewrite loop of src/gff3_rename.py
lines 49-60 (GXF simple mode): exact dict lookup of column 0, then the
stripped and re-split columns are tab-joined with a fresh newline.
`columns[0]` is safe because the split always yields at least one field;
`headD ""` supplies that head. -/
def gff3Step (table : List (String × String)) (out : List String) (line : String) :
    List String :=
  if pyStartsWith line "#" then out ++ [line]
  else
    let columns := pySplitTab (pyStrip line)
    match dictLookup table (columns.headD "") with
    | some v => out ++ [joinTabs (columns.set 0 v) ++ "\n"]
    | none => out ++ [joinTabs columns ++ "\n"]

/-- Models the full streaming pass of src/gff3_rename.py `main`. -/
def gff3_rename (table : List (String × String)) (lines : List String) : List String :=
  List.foldl (gff3Step table) [] lines

/-- The branch order of the source (`len > 1`, `len == 1`, else) classifies
the replacement list exactly by its shape. -/
theorem resolve_spec (table : List (String × String)) (rawId : String) :
    resolve table rawId =
      match resolveReplacements table rawId with
      | [] => ResolutionOutcome.NoMatch
      | [n] => ResolutionOutcome.UniqueMatch n
      | l => ResolutionOutcome.AmbiguousMatch l := by
  have h : ∀ (l : List String),
      (if 1 < l.length then ResolutionOutcome.AmbiguousMatch l
       else if l.length = 1 then ResolutionOutcome.UniqueMatch (l.headD "")
       else ResolutionOutcome.NoMatch) =
      match l with
      | [] => ResolutionOutcome.NoMatch
      | [n] => ResolutionOutcome.UniqueMatch n
      | l => ResolutionOutcome.AmbiguousMatch l := by
    intro l
    match l with
    | [] => rfl
    | [n] => rfl
    | a :: b :: t =>
      have h2 : 1 < (a :: b :: t).length := by
        simp only [List.length_cons]
        omega
      rw [if_pos h2]
  exact h (resolveReplacements table rawId)

/-- Resolution yields NoMatch exactly when the replacement list is empty. -/
theorem resolve_eq_noMatch (table : List (String × String)) (rawId : String) :
    resolve table rawId = .NoMatch ↔ resolveReplacements table rawId = [] := by
  rw [resolve_spec]
  rcases h : resolveReplacements table rawId with _ | ⟨a, _ | ⟨b, t⟩⟩ <;> simp

/-- Resolution yields UniqueMatch n exactly when the replacement list is [n]. -/
theorem resolve_eq_unique (table : List (String × String)) (rawId n : String) :
    resolve table rawId = .UniqueMatch n ↔ resolveReplacements table rawId = [n] := by
  rw [resolve_spec]
  rcases h : resolveReplacements table rawId with _ | ⟨a, _ | ⟨b, t⟩⟩ <;> simp

/-- Resolution yields AmbiguousMatch c exactly when the replacement list is c
and has at least two elements. -/
theorem resolve_eq_ambiguous (table : List (String × String)) (rawId : String)
    (c : List String) :
    resolve table rawId = .AmbiguousMatch c ↔
      resolveReplacements table rawId = c ∧ 2 ≤ c.length := by
  rw [resolve_spec]
  rcases h : resolveReplacements table rawId with _ | ⟨a, _ | ⟨b, t⟩⟩
  · simp
    rintro rfl
    simp
  · simp
    rintro rfl
    simp
  · simp
    rintro rfl
    simp only [List.length_cons]
    omega

/-- The replacement list is empty exactly when no table entry's old ID is
contained in the raw identifier. -/
theorem resolveReplacements_eq_nil (table : List (String × String)) (rawId : String) :
    resolveReplacements table rawId = [] ↔
      ∀ e ∈ table, strContains rawId e.1 = false := by
  simp [resolveReplacements, List.map_eq_nil_iff, List.filter_eq_nil_iff]

/-- On a header line whose identifier resolves to exactly one replacement,
the FASTA step writes the rewritten header and nothing else changes. -/
theorem fastaStep_unique (table : List (String × String)) (s : FastaState)
    (line n : String) (h1 : pyStartsWith line ">" = true)
    (h2 : resolveReplacements table (pyStrip (strDrop1 line)) = [n]) :
    fastaStep table s line = { s with output := s.output ++ [">" ++ n ++ "\n"] } := by
  simp [fastaStep, h1, h2]

/-- C1: a mapping table with two rows sharing the oldId `a` does NOT keep
both rows: `load_table` deduplicates through the dict, so the loaded table
is the single entry (a, Y) and `resolve` on an identifier containing `a`
returns a unique match, not an ambiguous one. -/
theorem C1_counterexample :
    load_table ["a\tX", "a\tY"] ≠ [("a", "X"), ("a", "Y")] ∧
    resolve (load_table ["a\tX", "a\tY"]) "xa" = .UniqueMatch "Y" ∧
    (fasta_rename (load_table ["a\tX", "a\tY"]) [">xa\n"]).ambiguous = [] := by
  exact ⟨by decide, by decide, by decide⟩

/-- C1 (amended): `load_table` stores rows in a dict keyed by oldId, so the
duplicate rows `a→X` and `a→Y` collapse to the single entry (a, Y) — first
occurrence's position, last row's value — and every raw identifier
containing `a` resolves uniquely to Y rather than ambiguously. -/
theorem C1_dedup_last_wins (rawId : String) (h : strContains rawId "a" = true) :
    load_table ["a\tX", "a\tY"] = [("a", "Y")] ∧
    resolve (load_table ["a\tX", "a\tY"]) rawId = .UniqueMatch "Y" := by
  have ht : load_table ["a\tX", "a\tY"] = [("a", "Y")] := by decide
  refine ⟨ht, ?_⟩
  rw [ht, resolve_eq_unique]
  simp [resolveReplacements, List.filter_cons, h]

/-- C1 witness: the amended statement at the concrete identifier `xa`. -/
theorem C1_dedup_last_wins_witness :
    load_table ["a\tX", "a\tY"] = [("a", "Y")] ∧
    resolve (load_table ["a\tX", "a\tY"]) "xa" = .UniqueMatch "Y" :=
  C1_dedup_last_wins "xa" (by decide)

/-- C2: resolution scans the whole table with substring containment and
classifies by match count — zero matches is NoMatch, exactly one is
UniqueMatch of that entry's newId (and the FASTA step then writes the header
`>` ++ newId), two or more is AmbiguousMatch of all matched newIds in table
order; on the example table the header `>gene1_transcript` becomes
`>GENEA`. -/
theorem C2_resolution_policy (table : List (String × String)) (rawId : String) :
    (resolve table rawId = .NoMatch ↔ ∀ e ∈ table, strContains rawId e.1 = false) ∧
    (∀ n, resolve table rawId = .UniqueMatch n ↔ resolveReplacements table rawId = [n]) ∧
    (∀ c, resolve table rawId = .AmbiguousMatch c ↔
        resolveReplacements table rawId = c ∧ 2 ≤ c.length) ∧
    (∀ (s : FastaState) (line n : String), pyStartsWith line ">" = true →
        resolve table (pyStrip (strDrop1 line)) = .UniqueMatch n →
        fastaStep table s line = { s with output := s.output ++ [">" ++ n ++ "\n"] }) ∧
    (fasta_rename (load_table ["gene1\tGENEA", "gene2\tGENEB"])
        [">gene1_transcript\n"]).output = [">GENEA\n"] := by
  refine ⟨?_, ?_, ?_, ?_, by decide⟩
  · rw [resolve_eq_noMatch]
    exact resolveReplacements_eq_nil table rawId
  · intro n
    exact resolve_eq_unique table rawId n
  · intro c
    exact resolve_eq_ambiguous table rawId c
  · intro s line n h1 h2
    exact fastaStep_unique table s line n h1 ((resolve_eq_unique table _ n).mp h2)

/-- C2 witness: the unique-match rewrite clause instantiated on the spec's
own example. -/
theorem C2_resolution_policy_witness :
    fastaStep (load_table ["gene1\tGENEA", "gene2\tGENEB"]) ⟨[], [], []⟩
      ">gene1_transcript\n" = ⟨[">GENEA\n"], [], []⟩ := by
  have h := (C2_resolution_policy (load_table ["gene1\tGENEA", "gene2\tGENEB"])
      "gene1_transcript").2.2.2.1 ⟨[], [], []⟩ ">gene1_transcript\n" "GENEA"
      (by decide) (by decide)
  exact h.trans (by decide)

/-- C3: GXF simple mode does NOT use substring containment: the column-0
value `chr10` strictly contains the table oldId `chr1`, yet the row is
written with column 0 unchanged. -/
theorem C3_counterexample :
    strContains "chr10" "chr1" = true ∧
    gff3_rename [("chr1", "c1")] ["chr10\ta\ta\ta\ta\ta\ta\ta\ta\n"]
      = ["chr10\ta\ta\ta\ta\ta\ta\ta\ta\n"] := by
  exact ⟨by decide, by decide⟩

/-- C3 (amended): GXF simple mode replaces column 0 by exact dict lookup:
the column is rewritten exactly when it equals some entry's oldId, and any
row whose column 0 is not itself a key — even one strictly containing a key
as a proper substring — is written with that column unchanged. -/
theorem C3_simple_exact_lookup (table : List (String × String)) (out : List String)
    (line : String) (hc : pyStartsWith line "#" = false) :
    (∀ v, dictLookup table ((pySplitTab (pyStrip line)).headD "") = some v →
        gff3Step table out line =
          out ++ [joinTabs ((pySplitTab (pyStrip line)).set 0 v) ++ "\n"]) ∧
    (dictLookup table ((pySplitTab (pyStrip line)).headD "") = none →
        gff3Step table out line = out ++ [joinTabs (pySplitTab (pyStrip line)) ++ "\n"]) := by
  constructor
  · intro v hv
    simp only [gff3Step, hc, Bool.false_eq_true, if_false, hv]
  · intro hv
    simp only [gff3Step, hc, Bool.false_eq_true, if_false, hv]

/-- C3 witness: exact-equality column-0 rename on a concrete row. -/
theorem C3_simple_exact_lookup_witness :
    gff3Step [("chr1", "c1")] [] "chr1\ta\ta\ta\ta\ta\ta\ta\ta\n"
      = ["c1\ta\ta\ta\ta\ta\ta\ta\ta\n"] := by
  have h := (C3_simple_exact_lookup [("chr1", "c1")] [] "chr1\ta\ta\ta\ta\ta\ta\ta\ta\n"
      (by decide)).1 "c1" (by decide)
  exact h.trans (by decide)

/-- C5: in GXF attribute mode a non-comment line with exactly 8 tab-separated
fields passes the malformed-line guard (`len < 8` is false) yet has no field
at column index 8, so the rewrite loop's access is out of range and the run
aborts with an IndexError instead of processing the stream. -/
theorem C5_attribute_index_gap :
    pyStartsWith "a\tb\tc\td\te\tf\tg\th\n" "#" = false ∧
    ¬((pySplitTab (pyStrip "a\tb\tc\td\te\tf\tg\th\n")).length < 8) ∧
    (pySplitTab (pyStrip "a\tb\tc\td\te\tf\tg\th\n")).get? 8 = none ∧
    gxf_rename [] ["a\tb\tc\td\te\tf\tg\th\n"] = .error () :=
  ⟨by decide, by decide, by decide, rfl⟩

/-- C6: table validation accepts exactly the files in which every csv row has
exactly two fields; any row with a different field count — the blank line's
zero-field row included — makes the whole file invalid. -/
theorem C6_table_validation (lines : List String) :
    (validate_table lines = true ↔ ∀ l ∈ lines, (csvRow l).length = 2) ∧
    (∀ l ∈ lines, (csvRow l).length ≠ 2 → validate_table lines = false) ∧
    csvRow "" = [] ∧ validate_table [""] = false := by
  have hiff : validate_table lines = true ↔ ∀ l ∈ lines, (csvRow l).length = 2 := by
    simp [validate_table, List.all_eq_true]
  refine ⟨hiff, ?_, by decide, by decide⟩
  intro l hl hne
  cases h : validate_table lines
  · rfl
  · exact absurd (hiff.mp h l hl) hne

/-- C6 witness: a three-field row invalidates the whole table. -/
theorem C6_table_validation_witness :
    validate_table ["a\tb", "x\ty\tz"] = false :=
  (C6_table_validation ["a\tb", "x\ty\tz"]).2.1 "x\ty\tz" (by decide) (by decide)

/-- The final status is Failure exactly when the ambiguity accumulator is
non-empty at the end of the stream. -/
theorem runStatus_eq_failure (d : List (String × List String)) :
    runStatus d = .Failure ↔ d ≠ [] := by
  by_cases h : d = [] <;> simp [runStatus, h]

/-- C4: the run fails iff some record produced an ambiguous match — the
status is computed from the ambiguity accumulator alone, so no-match
warnings never force Failure — and the streaming fold never exits early:
processing a concatenation continues from the state after the first part,
so the whole output is written before the status is decided. -/
theorem C4_failure_condition (table : List (String × String))
    (lines l1 l2 : List String) :
    (runStatus (fasta_rename table lines).ambiguous = .Failure ↔
        (fasta_rename table lines).ambiguous ≠ []) ∧
    ((fasta_rename table lines).ambiguous = [] →
        runStatus (fasta_rename table lines).ambiguous = .Success) ∧
    (∀ g : GxfState, gxf_rename table lines = .ok g →
        (runStatus g.ambiguous = .Failure ↔ g.ambiguous ≠ [])) ∧
    (fasta_rename table (l1 ++ l2) =
        List.foldl (fastaStep table) (fasta_rename table l1) l2) := by
  refine ⟨runStatus_eq_failure _, ?_, ?_, ?_⟩
  · intro h
    simp [runStatus, h]
  · intro g _
    exact runStatus_eq_failure _
  · simp [fasta_rename, List.foldl_append]

/-- C4 witness: a no-match warning alone leaves the run in Success. -/
theorem C4_failure_condition_witness :
    runStatus (fasta_rename [("a", "X")] [">zzz\n", "ACGT\n"]).ambiguous = .Success :=
  (C4_failure_condition [("a", "X")] [">zzz\n", "ACGT\n"] [] []).2.1 (by decide)

/-- C7: validate_gxf accepts this file even though its non-comment line
`a	b` has fewer than 8 tab-delimited fields — acceptance needs only one
good line, not all of them. -/
theorem C7_counterexample :
    validate_gxf ["#h\n", "a\tb\n", "1\t2\t3\t4\t5\t6\t7\t8\t9\n"] = true ∧
    pyStartsWith "a\tb\n" "#" = false ∧
    (pySplitTab (pyStrip "a\tb\n")).length < 8 := by
  exact ⟨by decide, by decide, by decide⟩

/-- C7 (amended): validate_gxf accepts a file iff at least one non-comment
line has at least 8 tab-delimited fields; and during rewrite every
non-comment line with fewer than 8 fields is skipped — nothing is written
and neither the ambiguity accumulator nor the warnings change, only the
skip-warning log — so it cannot affect the final status. -/
theorem C7_attribute_validation (table : List (String × String))
    (lines : List String) :
    (validate_gxf lines = true ↔
        ∃ l ∈ lines, pyStartsWith l "#" = false ∧
          8 ≤ (pySplitTab (pyStrip l)).length) ∧
    (∀ (s : GxfState) (line : String), pyStartsWith line "#" = false →
        (pySplitTab (pyStrip line)).length < 8 →
        gxfStep table s line = .ok { s with skipped := s.skipped ++ [pyStrip line] }) := by
  constructor
  · simp [validate_gxf, List.any_eq_true, Bool.and_eq_true, Bool.not_eq_true']
  · intro s line h1 h2
    simp only [gxfStep, h1, Bool.false_eq_true, if_false]
    rw [if_pos h2]

/-- C7 witness: the two-field line `a	b` is skipped with a warning. -/
theorem C7_attribute_validation_witness :
    gxfStep [] ⟨[], [], [], []⟩ "a\tb\n" = .ok ⟨[], [], [], ["a\tb"]⟩ := by
  have h := (C7_attribute_validation [] []).2 ⟨[], [], [], []⟩ "a\tb\n"
      (by decide) (by decide)
  exact h

/-- A list index that is present witnesses that the index is in bounds. -/
theorem get?_some_lt {α : Type} (l : List α) (n : Nat) (a : α)
    (h : l.get? n = some a) : n < l.length := by
  induction l generalizing n with
  | nil => simp [List.get?] at h
  | cons x xs ih =>
    cases n with
    | zero => simp
    | succ m =>
      have hm := ih m (by simpa [List.get?] using h)
      simpa using Nat.succ_lt_succ hm

/-- C8: GXF simple mode does not preserve an unmatched row byte-for-byte:
a row with a trailing space before its newline is re-serialized without
that space even though nothing was renamed. -/
theorem C8_counterexample :
    gff3_rename [] ["x\ta\ta\ta\ta\ta\ta\ta\ta \n"]
      = ["x\ta\ta\ta\ta\ta\ta\ta\ta\n"] ∧
    ("x\ta\ta\ta\ta\ta\ta\ta\ta\n" : String) ≠ "x\ta\ta\ta\ta\ta\ta\ta\ta \n" := by
  exact ⟨by decide, by decide⟩

/-- C8 (amended): byte-for-byte pass-through holds for FASTA non-header
lines, FASTA headers without a unique match, GXF comment lines in both
modes, and GXF attribute-mode data lines without a unique match; GXF simple
mode instead re-serializes every non-comment line as stripped tab-joined
fields with a fresh newline, normalizing surrounding whitespace and the
final newline even when no rename occurs. -/
theorem C8_passthrough (table : List (String × String)) (s : FastaState)
    (g : GxfState) (out : List String) (line : String) :
    (pyStartsWith line ">" = false →
        fastaStep table s line = { s with output := s.output ++ [line] }) ∧
    (pyStartsWith line ">" = true →
        (resolveReplacements table (pyStrip (strDrop1 line))).length ≠ 1 →
        (fastaStep table s line).output = s.output ++ [line]) ∧
    (pyStartsWith line "#" = true →
        gxfStep table g line = .ok { g with output := g.output ++ [line] } ∧
        gff3Step table out line = out ++ [line]) ∧
    (∀ id9 : String, pyStartsWith line "#" = false →
        (pySplitTab (pyStrip line)).get? 8 = some id9 →
        (resolveReplacements table id9).length ≠ 1 →
        ∃ g2 : GxfState, gxfStep table g line = .ok g2 ∧
          g2.output = g.output ++ [line]) ∧
    (pyStartsWith line "#" = false →
        ∃ cols : List String, gff3Step table out line = out ++ [joinTabs cols ++ "\n"]) := by
  refine ⟨?_, ?_, ?_, ?_, ?_⟩
  · intro h
    simp [fastaStep, h]
  · intro h hn
    by_cases h2 : 1 < (resolveReplacements table (pyStrip (strDrop1 line))).length
    · simp [fastaStep, h, h2]
    · simp [fastaStep, h, h2, hn]
  · intro h
    constructor
    · simp [gxfStep, h]
    · simp [gff3Step, h]
  · intro id9 h1 h2 hn
    have hlen : ¬((pySplitTab (pyStrip line)).length < 8) := by
      have hlt := get?_some_lt (pySplitTab (pyStrip line)) 8 id9 h2
      omega
    by_cases hgt : 1 < (resolveReplacements table id9).length
    · refine ⟨{ g with
        output := g.output ++ [line]
        ambiguous := ambigAdd g.ambiguous id9 (resolveReplacements table id9) }, ?_, rfl⟩
      simp only [gxfStep, h1, Bool.false_eq_true, if_false]
      rw [if_neg hlen, h2]
      simp [hgt]
    · refine ⟨{ g with
        output := g.output ++ [line]
        warnings := g.warnings ++ [id9] }, ?_, rfl⟩
      simp only [gxfStep, h1, Bool.false_eq_true, if_false]
      rw [if_neg hlen, h2]
      simp [hgt, hn]
  · intro h1
    cases hl : dictLookup table ((pySplitTab (pyStrip line)).headD "") with
    | none =>
      exact ⟨pySplitTab (pyStrip line),
        by simp only [gff3Step, h1, Bool.false_eq_true, if_false, hl]⟩
    | some v =>
      exact ⟨(pySplitTab (pyStrip line)).set 0 v,
        by simp only [gff3Step, h1, Bool.false_eq_true, if_false, hl]⟩

/-- C8 witness: an ambiguous FASTA header is passed through unchanged. -/
theorem C8_passthrough_witness :
    (fastaStep [("a", "X"), ("b", "Y")] ⟨[], [], []⟩ ">ab\n").output = [">ab\n"] := by
  have h := (C8_passthrough [("a", "X"), ("b", "Y")] ⟨[], [], []⟩ ⟨[], [], [], []⟩ []
      ">ab\n").2.1 (by decide) (by decide)
  exact h.trans (by decide)

/-- Canonical header lines that resolve uniquely to their own identifier are
reproduced verbatim by the FASTA loop, from any starting state. -/
theorem fasta_fold_output_id (table : List (String × String)) :
    ∀ (lines : List String) (s : FastaState),
      (∀ line ∈ lines, pyStartsWith line ">" = true →
          line = ">" ++ pyStrip (strDrop1 line) ++ "\n" ∧
          resolveReplacements table (pyStrip (strDrop1 line)) =
            [pyStrip (strDrop1 line)]) →
      (List.foldl (fastaStep table) s lines).output = s.output ++ lines
  | [], s, _ => by simp
  | line :: rest, s, h => by
    have hline := h line (by simp)
    have hrest : ∀ l ∈ rest, pyStartsWith l ">" = true →
        l = ">" ++ pyStrip (strDrop1 l) ++ "\n" ∧
        resolveReplacements table (pyStrip (strDrop1 l)) = [pyStrip (strDrop1 l)] :=
      fun l hl => h l (by simp [hl])
    have hstep : (fastaStep table s line).output = s.output ++ [line] := by
      cases hh : pyStartsWith line ">" with
      | false => simp [fastaStep, hh]
      | true =>
        obtain ⟨hcanon, hres⟩ := hline hh
        rw [fastaStep_unique table s line (pyStrip (strDrop1 line)) hh hres]
        show s.output ++ [">" ++ pyStrip (strDrop1 line) ++ "\n"] = s.output ++ [line]
        rw [← hcanon]
    calc (List.foldl (fastaStep table) s (line :: rest)).output
        = (List.foldl (fastaStep table) (fastaStep table s line) rest).output := rfl
      _ = (fastaStep table s line).output ++ rest :=
          fasta_fold_output_id table rest (fastaStep table s line) hrest
      _ = s.output ++ [line] ++ rest := by rw [hstep]
      _ = s.output ++ (line :: rest) := by simp

/-- A raw identifier whose only containment match in an identity table is its
own entry resolves to the singleton list holding itself. -/
theorem identity_resolves_self (table : List (String × String))
    (hid : ∀ e ∈ table, e.2 = e.1) (rawId : String)
    (hm : (table.filter (fun e => strContains rawId e.1)).map (fun e => e.1) = [rawId]) :
    resolveReplacements table rawId = [rawId] := by
  rcases hf : table.filter (fun e => strContains rawId e.1) with _ | ⟨e, rest⟩
  · rw [hf] at hm
    simp at hm
  · rw [hf] at hm
    simp only [List.map_cons, List.cons.injEq] at hm
    obtain ⟨h1, h2⟩ := hm
    have hrest : rest = [] := List.map_eq_nil_iff.mp h2
    subst hrest
    have hmem : e ∈ table :=
      List.mem_of_mem_filter (by rw [hf]; exact List.mem_singleton_self e)
    unfold resolveReplacements
    rw [hf]
    simp [hid e hmem, h1]

/-- C9: the identity-table round trip is not byte-identical for every FASTA
file: a header carrying a trailing space before its newline satisfies the
identity-table conditions (its extracted identifier maps to itself,
uniquely), yet the rewrite normalizes the header and the output differs
from the input. -/
theorem C9_counterexample :
    (∀ e ∈ [("idA", "idA")], e.2 = e.1) ∧
    (fasta_rename [("idA", "idA")] [">idA \n"]).output = [">idA\n"] ∧
    ([">idA\n"] : List String) ≠ [">idA \n"] := by
  exact ⟨by decide, by decide, by decide⟩

/-- C9 (amended): with an identity mapping table, a FASTA file reproduces
byte-identically provided each header line is canonical — exactly `>`
followed by its trimmed identifier and a terminating newline — and that
identifier's only containment match in the table is its own entry; headers
with extra surrounding whitespace or a missing final newline are instead
normalized. -/
theorem C9_identity_roundtrip (table : List (String × String)) (lines : List String)
    (hid : ∀ e ∈ table, e.2 = e.1)
    (hcanon : ∀ line ∈ lines, pyStartsWith line ">" = true →
        line = ">" ++ pyStrip (strDrop1 line) ++ "\n" ∧
        (table.filter (fun e => strContains (pyStrip (strDrop1 line)) e.1)).map
          (fun e => e.1) = [pyStrip (strDrop1 line)]) :
    (fasta_rename table lines).output = lines := by
  have h : ∀ line ∈ lines, pyStartsWith line ">" = true →
      line = ">" ++ pyStrip (strDrop1 line) ++ "\n" ∧
      resolveReplacements table (pyStrip (strDrop1 line)) = [pyStrip (strDrop1 line)] := by
    intro line hl hh
    obtain ⟨h1, h2⟩ := hcanon line hl hh
    exact ⟨h1, identity_resolves_self table hid _ h2⟩
  have h2 := fasta_fold_output_id table lines ⟨[], [], []⟩ h
  simpa [fasta_rename] using h2

/-- C9 witness: a canonical two-line FASTA file through its identity table. -/
theorem C9_identity_roundtrip_witness :
    (fasta_rename [("geneA", "geneA")] [">geneA\n", "ACGT\n"]).output
      = [">geneA\n", "ACGT\n"] :=
  C9_identity_roundtrip [("geneA", "geneA")] [">geneA\n", "ACGT\n"]
    (by decide) (by decide)

/-- C10: the FASTA adapter accepts a file iff some line starts with `>`;
on a unique match the whole header line is replaced by `>` plus the
resolved newId, discarding the original header text; and non-header lines
pass through unchanged. -/
theorem C10_fasta_adapter (table : List (String × String)) (lines : List String) :
    (validate_fasta lines = true ↔ ∃ l ∈ lines, pyStartsWith l ">" = true) ∧
    (∀ (s : FastaState) (line n : String), pyStartsWith line ">" = true →
        resolveReplacements table (pyStrip (strDrop1 line)) = [n] →
        fastaStep table s line = { s with output := s.output ++ [">" ++ n ++ "\n"] }) ∧
    (∀ (s : FastaState) (line : String), pyStartsWith line ">" = false →
        fastaStep table s line = { s with output := s.output ++ [line] }) := by
  refine ⟨?_, ?_, ?_⟩
  · simp [validate_fasta, List.any_eq_true]
  · intro s line n h1 h2
    exact fastaStep_unique table s line n h1 h2
  · intro s line h
    simp [fastaStep, h]

/-- C10 witness: the description text after the identifier is discarded on a
unique match. -/
theorem C10_fasta_adapter_witness :
    fastaStep [("gene1", "GENEA")] ⟨[], [], []⟩ ">gene1 tail\n"
      = ⟨[">GENEA\n"], [], []⟩ := by
  have h := (C10_fasta_adapter [("gene1", "GENEA")] []).2.1 ⟨[], [], []⟩
      ">gene1 tail\n" "GENEA" (by decide) (by decide)
  exact h.trans (by decide)
